import Mathlib

/-!
# Verification of the terminal-mcp server

A shallow embedding of the terminal-mcp Rust sources (src/) together with
proofs about the embedded definitions.  Strings are modelled by Lean
`String`/`List Char`; bytes by `Nat`; fallible operations by `Except`.
The vt100 screen parser is an external crate: its query surface
(`contents`, `contents_between`, `cell`) is modelled from the spec (§4.3),
while everything under src/ is translated directly from the source.
-/

namespace TerminalMcp

/-- JSON value model (serde_json::Value): numbers restricted to integers,
which covers every number this protocol layer produces or consumes. -/
inductive Json where
  | null : Json
  | bool (b : Bool) : Json
  | num (n : Int) : Json
  | str (s : String) : Json
  | arr (xs : List Json) : Json
  | obj (fields : List (String × Json)) : Json

/-- Field lookup in a JSON object (serde_json map access by key). -/
def fieldLookup (fields : List (String × Json)) (key : String) : Option Json :=
  match fields with
  | [] => none
  | (k, v) :: rest => if k = key then some v else fieldLookup rest key

/-- Decimal digit character (model of Rust integer Display digits). -/
def digitChar (n : Nat) : Char :=
  match n with
  | 0 => '0' | 1 => '1' | 2 => '2' | 3 => '3' | 4 => '4'
  | 5 => '5' | 6 => '6' | 7 => '7' | 8 => '8' | 9 => '9'
  | _ => '*'

/-- Fuel-driven decimal printer helper. -/
def natDigitsAux : Nat → Nat → List Char
  | 0, _ => []
  | fuel + 1, n =>
    if n < 10 then [digitChar n]
    else natDigitsAux fuel (n / 10) ++ [digitChar (n % 10)]

/-- Decimal representation of a natural number (model of Rust `format` of
an unsigned integer). -/
def natDigits (n : Nat) : List Char := natDigitsAux (n + 1) n

/-- Decimal representation as a `String`. -/
def natStr (n : Nat) : String := ⟨natDigits n⟩

/-- UTF-8 byte length of one scalar value (Rust `char::len_utf8`). -/
def utf8SizeChar (c : Char) : Nat :=
  if c.toNat < 0x80 then 1
  else if c.toNat < 0x800 then 2
  else if c.toNat < 0x10000 then 3
  else 4

/-- UTF-8 encoding of one scalar value. -/
def utf8EncodeChar (c : Char) : List Nat :=
  let n := c.toNat
  if n < 0x80 then [n]
  else if n < 0x800 then [0xC0 + n / 64, 0x80 + n % 64]
  else if n < 0x10000 then
    [0xE0 + n / 4096, 0x80 + (n / 64) % 64, 0x80 + n % 64]
  else
    [0xF0 + n / 0x40000, 0x80 + (n / 4096) % 64, 0x80 + (n / 64) % 64,
      0x80 + n % 64]

/-- UTF-8 encoding of a character sequence (Rust `str::as_bytes`). -/
def utf8Encode (cs : List Char) : List Nat := cs.flatMap utf8EncodeChar

/-- UTF-8 byte length of a character sequence (Rust `str::len`). -/
def utf8Len (cs : List Char) : Nat := (cs.map utf8SizeChar).sum

/-- Bytes of a string (Rust `str::as_bytes`). -/
def strBytes (s : String) : List Nat := utf8Encode s.data

/-- Rust slice `join(sep)` for a one-character separator: the separator
between elements, none at either end. -/
def joinWith (sep : Char) : List (List Char) → List Char
  | [] => []
  | [l] => l
  | l :: next :: rest => l ++ sep :: joinWith sep (next :: rest)

/-- `join` with a newline separator. -/
def joinLines : List (List Char) → List Char := joinWith '\n'

/-! ## src/terminal/buffer.rs -/

/-- Scanner state for `strip_ansi`: `normal` between sequences, `sawEsc`
right after an escape byte, `inSeq` inside a CSI sequence. -/
inductive StripMode where
  | normal : StripMode
  | sawEsc : StripMode
  | inSeq : StripMode

/-- Character-level embedding of `strip_ansi` (buffer.rs): on `\x1b`
peek for `[`, then skip up to and including the first ASCII letter;
a lone escape byte is dropped. -/
def stripAnsiAux : StripMode → List Char → List Char
  | _, [] => []
  | .normal, c :: rest =>
    if c = '\x1b' then stripAnsiAux .sawEsc rest
    else c :: stripAnsiAux .normal rest
  | .sawEsc, c :: rest =>
    if c = '[' then stripAnsiAux .inSeq rest
    else if c = '\x1b' then stripAnsiAux .sawEsc rest
    else c :: stripAnsiAux .normal rest
  | .inSeq, c :: rest =>
    if c.isAlpha then stripAnsiAux .normal rest
    else stripAnsiAux .inSeq rest

/-- `strip_ansi` from buffer.rs. -/
def strip_ansi (s : String) : String := ⟨stripAnsiAux .normal s.data⟩

/-- The set of Unicode White_Space characters (Rust `char::is_whitespace`). -/
def isRustWs (c : Char) : Bool :=
  c = ' ' || c = '\t' || c = '\n' || c = '\x0b' || c = '\x0c' || c = '\r' ||
  c.toNat = 0x85 || c.toNat = 0xA0 || c.toNat = 0x1680 ||
  (0x2000 ≤ c.toNat && c.toNat ≤ 0x200A) ||
  c.toNat = 0x2028 || c.toNat = 0x2029 || c.toNat = 0x202F ||
  c.toNat = 0x205F || c.toNat = 0x3000

/-- Remove one trailing carriage return (Rust `strip_suffix` of CR used
by `str::lines`). -/
def dropTrailingCR (l : List Char) : List Char :=
  if l.getLast? = some '\r' then l.dropLast else l

/-- Accumulator-based embedding of Rust `str::lines`: split at `\n`,
drop a final empty piece, strip one `\r` before each consumed `\n`. -/
def rustLinesAux : List Char → List Char → List (List Char)
  | [], acc => if acc.isEmpty then [] else [acc.reverse]
  | c :: rest, acc =>
    if c = '\n' then dropTrailingCR acc.reverse :: rustLinesAux rest []
    else rustLinesAux rest (c :: acc)

/-- Rust `str::lines`. -/
def rustLines (cs : List Char) : List (List Char) := rustLinesAux cs []

/-- Rust `str::trim_end`: remove trailing whitespace. -/
def trimEndL (l : List Char) : List Char :=
  (l.reverse.dropWhile isRustWs).reverse

/-- Rust `str::trim`: remove leading and trailing whitespace. -/
def trimBoth (l : List Char) : List Char :=
  trimEndL (l.dropWhile isRustWs)

/-- `trim_trailing_whitespace` (buffer.rs): trim the end of every line,
re-join with newlines. -/
def trimTrailingWhitespaceL (cs : List Char) : List Char :=
  joinLines ((rustLines cs).map trimEndL)

/-- The while-loop of `trim_trailing_empty_lines`: drop lines from the
end while they are empty after `trim`. -/
def dropTrailEmpty (lines : List (List Char)) : List (List Char) :=
  (lines.reverse.dropWhile (fun l => (trimBoth l).isEmpty)).reverse

/-- `trim_trailing_empty_lines` (buffer.rs). -/
def trimTrailingEmptyLinesL (cs : List Char) : List Char :=
  joinLines (dropTrailEmpty (rustLines cs))

/-- Proof device: remove a final empty line, as re-splitting a joined
text does. -/
def stripLastEmpty : List (List Char) → List (List Char)
  | [] => []
  | [l] => if l = [] then [] else [l]
  | l :: next :: rest => l :: stripLastEmpty (next :: rest)

/-- `clean_output` (buffer.rs): trim trailing whitespace per line, then
strip trailing empty lines. -/
def cleanOutputL (cs : List Char) : List Char :=
  trimTrailingEmptyLinesL (trimTrailingWhitespaceL cs)

/-- `clean_output` on strings. -/
def clean_output (s : String) : String := ⟨cleanOutputL s.data⟩

/-! ## src/utils/keys.rs -/

/-- ASCII lowercasing of one character: the fragment of Rust
`str::to_lowercase` that is exact on ASCII input.  The full Unicode
case mapping (e.g. `É` to `é`) is not modelled, so every theorem about
arbitrary (not table-listed) key names carries an all-ASCII
hypothesis restricting it to the domain where this model agrees with
the program. -/
def toLowerChar (c : Char) : Char :=
  if 65 ≤ c.toNat ∧ c.toNat ≤ 90 then Char.ofNat (c.toNat + 32) else c

/-- ASCII lowercasing of a character sequence (exact for ASCII strings;
see `toLowerChar` for the scope of this model). -/
def toLowerL (cs : List Char) : List Char := cs.map toLowerChar

/-- The literal arms of the `key_to_sequence` match, in source order:
alternation patterns become one entry per alternative. -/
def keyTable : List (List Char × List Char) :=
  [("enter".data, "\r".data), ("return".data, "\r".data),
   ("tab".data, "\t".data),
   ("escape".data, "\x1b".data), ("esc".data, "\x1b".data),
   ("backspace".data, "\x7f".data),
   ("delete".data, "\x1b[3~".data), ("del".data, "\x1b[3~".data),
   ("space".data, " ".data),
   ("up".data, "\x1b[A".data), ("arrowup".data, "\x1b[A".data),
   ("down".data, "\x1b[B".data), ("arrowdown".data, "\x1b[B".data),
   ("right".data, "\x1b[C".data), ("arrowright".data, "\x1b[C".data),
   ("left".data, "\x1b[D".data), ("arrowleft".data, "\x1b[D".data),
   ("home".data, "\x1b[H".data), ("end".data, "\x1b[F".data),
   ("pageup".data, "\x1b[5~".data), ("pgup".data, "\x1b[5~".data),
   ("pagedown".data, "\x1b[6~".data), ("pgdn".data, "\x1b[6~".data),
   ("insert".data, "\x1b[2~".data), ("ins".data, "\x1b[2~".data),
   ("f1".data, "\x1bOP".data), ("f2".data, "\x1bOQ".data),
   ("f3".data, "\x1bOR".data), ("f4".data, "\x1bOS".data),
   ("f5".data, "\x1b[15~".data), ("f6".data, "\x1b[17~".data),
   ("f7".data, "\x1b[18~".data), ("f8".data, "\x1b[19~".data),
   ("f9".data, "\x1b[20~".data), ("f10".data, "\x1b[21~".data),
   ("f11".data, "\x1b[23~".data), ("f12".data, "\x1b[24~".data),
   ("ctrl+a".data, "\x01".data), ("ctrl-a".data, "\x01".data), ("c-a".data, "\x01".data),
   ("ctrl+b".data, "\x02".data), ("ctrl-b".data, "\x02".data), ("c-b".data, "\x02".data),
   ("ctrl+c".data, "\x03".data), ("ctrl-c".data, "\x03".data), ("c-c".data, "\x03".data),
   ("ctrl+d".data, "\x04".data), ("ctrl-d".data, "\x04".data), ("c-d".data, "\x04".data),
   ("ctrl+e".data, "\x05".data), ("ctrl-e".data, "\x05".data), ("c-e".data, "\x05".data),
   ("ctrl+f".data, "\x06".data), ("ctrl-f".data, "\x06".data), ("c-f".data, "\x06".data),
   ("ctrl+g".data, "\x07".data), ("ctrl-g".data, "\x07".data), ("c-g".data, "\x07".data),
   ("ctrl+h".data, "\x08".data), ("ctrl-h".data, "\x08".data), ("c-h".data, "\x08".data),
   ("ctrl+i".data, "\x09".data), ("ctrl-i".data, "\x09".data), ("c-i".data, "\x09".data),
   ("ctrl+j".data, "\x0a".data), ("ctrl-j".data, "\x0a".data), ("c-j".data, "\x0a".data),
   ("ctrl+k".data, "\x0b".data), ("ctrl-k".data, "\x0b".data), ("c-k".data, "\x0b".data),
   ("ctrl+l".data, "\x0c".data), ("ctrl-l".data, "\x0c".data), ("c-l".data, "\x0c".data),
   ("ctrl+m".data, "\x0d".data), ("ctrl-m".data, "\x0d".data), ("c-m".data, "\x0d".data),
   ("ctrl+n".data, "\x0e".data), ("ctrl-n".data, "\x0e".data), ("c-n".data, "\x0e".data),
   ("ctrl+o".data, "\x0f".data), ("ctrl-o".data, "\x0f".data), ("c-o".data, "\x0f".data),
   ("ctrl+p".data, "\x10".data), ("ctrl-p".data, "\x10".data), ("c-p".data, "\x10".data),
   ("ctrl+q".data, "\x11".data), ("ctrl-q".data, "\x11".data), ("c-q".data, "\x11".data),
   ("ctrl+r".data, "\x12".data), ("ctrl-r".data, "\x12".data), ("c-r".data, "\x12".data),
   ("ctrl+s".data, "\x13".data), ("ctrl-s".data, "\x13".data), ("c-s".data, "\x13".data),
   ("ctrl+t".data, "\x14".data), ("ctrl-t".data, "\x14".data), ("c-t".data, "\x14".data),
   ("ctrl+u".data, "\x15".data), ("ctrl-u".data, "\x15".data), ("c-u".data, "\x15".data),
   ("ctrl+v".data, "\x16".data), ("ctrl-v".data, "\x16".data), ("c-v".data, "\x16".data),
   ("ctrl+w".data, "\x17".data), ("ctrl-w".data, "\x17".data), ("c-w".data, "\x17".data),
   ("ctrl+x".data, "\x18".data), ("ctrl-x".data, "\x18".data), ("c-x".data, "\x18".data),
   ("ctrl+y".data, "\x19".data), ("ctrl-y".data, "\x19".data), ("c-y".data, "\x19".data),
   ("ctrl+z".data, "\x1a".data), ("ctrl-z".data, "\x1a".data), ("c-z".data, "\x1a".data),
   ("ctrl+[".data, "\x1b".data), ("ctrl-[".data, "\x1b".data),
   ("ctrl+\\".data, "\x1c".data), ("ctrl-\\".data, "\x1c".data),
   ("ctrl+]".data, "\x1d".data), ("ctrl-]".data, "\x1d".data),
   ("ctrl+^".data, "\x1e".data), ("ctrl-^".data, "\x1e".data),
   ("ctrl+_".data, "\x1f".data), ("ctrl-_".data, "\x1f".data)]

/-- First-match lookup over the literal arms (match-on-string semantics). -/
def keyLookup (k : List Char) : Option (List Char) :=
  match keyTable.lookup k with
  | some v => some v
  | none => none

/-- The alt/meta guard: the key starts with `alt+`, `alt-` or `m-`. -/
def isAltCombo (k : List Char) : Bool :=
  "alt+".data.isPrefixOf k || "alt-".data.isPrefixOf k || "m-".data.isPrefixOf k

/-- Model of the chained `strip_` calls in the alt/meta arm: remove the
first matching marker, or yield the empty string. -/
def dropAltMarker (k : List Char) : List Char :=
  if "alt+".data.isPrefixOf k then k.drop 4
  else if "alt-".data.isPrefixOf k then k.drop 4
  else if "m-".data.isPrefixOf k then k.drop 2
  else []

/-- Whether the lowercased key matches one of the recognized categories of
`key_to_sequence` (a literal arm or the alt/meta guard). -/
def recognizedKey (k : List Char) : Bool :=
  (keyLookup k).isSome || isAltCombo k

/-- `key_to_sequence` (keys.rs) on character lists: lowercase, match the
literal arms, then the alt/meta guard, else return the (lowercased)
string unchanged. -/
def keyToSequenceL (key : List Char) : List Char :=
  let k := toLowerL key
  match keyLookup k with
  | some seq => seq
  | none =>
    if isAltCombo k then '\x1b' :: dropAltMarker k
    else k

/-- `key_to_sequence` on strings. -/
def key_to_sequence (key : String) : String := ⟨keyToSequenceL key.data⟩

/-! ## Screen model (vt100 crate interface, spec §4.3) and
    src/terminal/emulator.rs -/

/-- Cell color (vt100::Color): default, indexed palette, or 24-bit RGB. -/
inductive Color where
  | default : Color
  | idx (n : Nat) : Color
  | rgb (r g b : Nat) : Color
deriving DecidableEq

/-- A screen cell (vt100::Cell surface used by emulator.rs): displayed
text plus the six style attributes the screenshot encoder reads. -/
structure Cell where
  contents : String
  fg : Color
  bg : Color
  bold : Bool
  italic : Bool
  underline : Bool
  inverse : Bool
deriving DecidableEq

/-- The single character the screenshot emits for a cell:
`cell.contents().chars().next().unwrap_or(' ')`. -/
def headChar (cell : Cell) : Char := cell.contents.data.head?.getD ' '

/-- `cells_same_style` (emulator.rs): style equality ignoring content. -/
def cells_same_style (a b : Cell) : Bool :=
  a.fg == b.fg && a.bg == b.bg && a.bold == b.bold && a.italic == b.italic
    && a.underline == b.underline && a.inverse == b.inverse

/-- The `codes` vector built by `cell_to_ansi` (emulator.rs). -/
def cellCodes (cell : Cell) : List (List Char) :=
  (if cell.bold then [['1']] else []) ++
    (if cell.italic then [['3']] else []) ++
    (if cell.underline then [['4']] else []) ++
    (if cell.inverse then [['7']] else []) ++
    (match cell.fg with
     | .default => []
     | .idx i =>
       if i < 8 then [natDigits (30 + i)]
       else if i < 16 then [natDigits (90 + i - 8)]
       else ["38;5;".data ++ natDigits i]
     | .rgb r g b =>
       ["38;2;".data ++ natDigits r ++ [';'] ++ natDigits g ++ [';'] ++
         natDigits b]) ++
    (match cell.bg with
     | .default => []
     | .idx i =>
       if i < 8 then [natDigits (40 + i)]
       else if i < 16 then [natDigits (100 + i - 8)]
       else ["48;5;".data ++ natDigits i]
     | .rgb r g b =>
       ["48;2;".data ++ natDigits r ++ [';'] ++ natDigits g ++ [';'] ++
         natDigits b])

/-- `cell_to_ansi` (emulator.rs): SGR escape for a cell's attributes, or
nothing when there are no codes. -/
def cell_to_ansi (cell : Cell) : List Char :=
  if (cellCodes cell).isEmpty then []
  else "\x1b[".data ++ joinWith ';' (cellCodes cell) ++ ['m']

/-- Whether new attributes must be emitted before this cell
(`current_attrs.as_ref().map(.. !cells_same_style ..).unwrap_or(true)`). -/
def needNewAttrs (cur : Option Cell) (cell : Cell) : Bool :=
  (cur.map (fun c => !cells_same_style c cell)).getD true

/-- The column loop of `take_screenshot`: emit a reset plus new SGR codes
whenever the style changes (or at row start), then the cell character. -/
def rowShot : List Cell → Option Cell → List Char
  | [], _ => []
  | cell :: rest, cur =>
    if needNewAttrs cur cell then
      "\x1b[0m".data ++ cell_to_ansi cell ++ (headChar cell :: rowShot rest (some cell))
    else headChar cell :: rowShot rest cur

/-- `take_screenshot` rendering over the grid: each row ends with a
reset; rows joined by newlines with none after the last row. -/
def takeScreenshotL (grid : List (List Cell)) : List Char :=
  joinLines (grid.map (fun row => rowShot row none ++ "\x1b[0m".data))

/-- Modelled from the spec: vt100 `Screen::contents` is not part of this
repository; §4.3 specifies it as flattening all rows' visible text,
newline-joined.  A row's visible text is its cells' displayed
characters. -/
def screenContents (grid : List (List Cell)) : List Char :=
  joinLines (grid.map (fun row => row.map headChar))

/-- Modelled from the spec: vt100 `Screen::contents_between(row, 0, row,
cols)` is not part of this repository; it yields the visible text of the
one row, here the row's cells' displayed characters (empty for a row
outside the grid). -/
def rowContentsL (grid : List (List Cell)) (row : Nat) : List Char :=
  ((grid.get? row).getD []).map headChar

/-- The Terminal Session Engine state (emulator.rs `Terminal`): the vt100
parser state is modelled as the grid, cursor and scrollback it holds once
pending PTY output has been drained (`process_output` precedes every
query in the source); the PTY is modelled by its tracked size, the byte
stream written so far, and an optional pending write failure. -/
structure Terminal where
  grid : List (List Cell)
  cursorRow : Nat
  cursorCol : Nat
  ptyCols : Nat
  ptyRows : Nat
  written : List Nat
  writeError : Option String

/-- `Pty::size` as surfaced by `Terminal::size`: `(cols, rows)`. -/
def Terminal.size (t : Terminal) : Nat × Nat := (t.ptyCols, t.ptyRows)

/-- `Terminal::cursor_position`: `(row, col)` of the screen cursor. -/
def Terminal.cursor_position (t : Terminal) : Nat × Nat :=
  (t.cursorRow, t.cursorCol)

/-- `Terminal::write` via `Pty::write`: append the bytes to the PTY sink
and return the count, or fail with the wrapped PTY write error
(`TerminalError::Pty(PtyError::WriteError(..))` rendered by Display). -/
def Terminal.write (t : Terminal) (data : List Nat) :
    Except String (Terminal × Nat) :=
  match t.writeError with
  | some msg => .error ("PTY error: Failed to write to PTY: " ++ msg)
  | none => .ok ({ t with written := t.written ++ data }, data.length)

/-- `Terminal::write_str`: write the UTF-8 bytes of the text. -/
def Terminal.write_str (t : Terminal) (text : String) :
    Except String (Terminal × Nat) :=
  t.write (strBytes text)

/-- `Terminal::send_key`: encode the key name and write the sequence. -/
def Terminal.send_key (t : Terminal) (key : String) :
    Except String Terminal :=
  match t.write (strBytes (key_to_sequence key)) with
  | .error e => .error e
  | .ok (t2, _) => .ok t2

/-- `Terminal::get_content`: the whole-screen contents. -/
def Terminal.get_content (t : Terminal) : String := ⟨screenContents t.grid⟩

/-- Row indices `start..e` of the `get_content_range` loop. -/
def rowRange (start e : Nat) : List Nat :=
  (List.range (e - start)).map (start + ·)

/-- `Terminal::get_content_range`: clamp the end row to the grid, then
join the rows' contents, separating all but the last with a newline. -/
def Terminal.get_content_range (t : Terminal) (startRow endRow : Nat) :
    String :=
  let rows := t.ptyRows
  let e := min endRow rows
  ⟨(rowRange startRow e).foldl
    (fun acc row =>
      acc ++ rowContentsL t.grid row ++ (if row < e - 1 then ['\n'] else []))
    []⟩

/-- `Terminal::take_screenshot`: the style-diff ANSI rendering. -/
def Terminal.take_screenshot (t : Terminal) : String :=
  ⟨takeScreenshotL t.grid⟩

/-- `Terminal::clear`: write the clear-screen/home escape sequence
through the PTY. -/
def Terminal.clear (t : Terminal) : Except String Terminal :=
  match t.write (strBytes "\x1b[2J\x1b[H") with
  | .error e => .error e
  | .ok (t2, _) => .ok t2

/-! ## src/mcp/protocol.rs -/

/-- JSON-RPC error object. -/
structure JsonRpcError where
  code : Int
  message : String
  data : Option Json

/-- `JsonRpcError::method_not_found`. -/
def JsonRpcError.method_not_found (method : String) : JsonRpcError :=
  ⟨-32601, "Method not found: " ++ method, none⟩

/-- `JsonRpcError::invalid_params`. -/
def JsonRpcError.invalid_params (message : String) : JsonRpcError :=
  ⟨-32602, message, none⟩

/-- JSON-RPC request after transport-level parsing
(`JsonRpcRequest`). -/
structure JsonRpcRequest where
  jsonrpc : String
  id : Option Json
  method : String
  params : Option Json

/-- JSON-RPC response (`JsonRpcResponse`). -/
structure JsonRpcResponse where
  jsonrpc : String
  id : Option Json
  result : Option Json
  error : Option JsonRpcError

/-- `JsonRpcResponse::success`. -/
def JsonRpcResponse.success (id : Option Json) (result : Json) :
    JsonRpcResponse :=
  ⟨"2.0", id, some result, none⟩

/-- `JsonRpcResponse::error`. -/
def JsonRpcResponse.mkError (id : Option Json) (e : JsonRpcError) :
    JsonRpcResponse :=
  ⟨"2.0", id, none, some e⟩

/-- Tool result content (`ToolContent`), with its serde tag values. -/
inductive ToolContent where
  | text (text : String) : ToolContent
  | image (data : String) (mimeType : String) : ToolContent

/-- Tool call result (`CallToolResult`). -/
structure CallToolResult where
  content : List ToolContent
  is_error : Option Bool

/-- `CallToolResult::text`: success result with one text content. -/
def CallToolResult.text (t : String) : CallToolResult :=
  ⟨[ToolContent.text t], none⟩

/-- `CallToolResult::error`: error-flagged result with one text
content. -/
def CallToolResult.mkError (message : String) : CallToolResult :=
  ⟨[ToolContent.text message], some true⟩

/-- Serialization of `ToolContent` (serde tag `type`, lowercase). -/
def toolContentToJson : ToolContent → Json
  | .text t => .obj [("type", .str "text"), ("text", .str t)]
  | .image d m =>
    .obj [("type", .str "image"), ("data", .str d), ("mimeType", .str m)]

/-- Serialization of `CallToolResult` (`isError` skipped when absent). -/
def callToolResultToJson (r : CallToolResult) : Json :=
  .obj ([("content", .arr (r.content.map toolContentToJson))] ++
    (match r.is_error with
     | none => []
     | some b => [("isError", .bool b)]))

/-- Tool definition (`ToolDefinition`): static name, description and
JSON argument schema. -/
structure ToolDefinition where
  name : String
  description : String
  inputSchema : Json

/-- Serialization of a tool definition (serde rename `inputSchema`). -/
def toolDefToJson (d : ToolDefinition) : Json :=
  .obj [("name", .str d.name), ("description", .str d.description),
    ("inputSchema", d.inputSchema)]

/-! ## serde argument parsing for the tool argument structs.
Error messages stand in for serde's dynamic messages; only their
presence is load-bearing. -/

/-- serde string field: must be present and a string. -/
def parseStrField (fields : List (String × Json)) (key : String) :
    Except String String :=
  match fieldLookup fields key with
  | some (.str s) => .ok s
  | some _ => .error ("invalid type for field " ++ key)
  | none => .error ("missing field " ++ key)

/-- serde `Option` of u16 with default: absent or null is `none`; a
number must be an integer within u16 range. -/
def parseOptU16 (v : Option Json) : Except String (Option Nat) :=
  match v with
  | none => .ok none
  | some .null => .ok none
  | some (.num n) =>
    if 0 ≤ n ∧ n < 65536 then .ok (some n.toNat)
    else .error "number out of range for u16"
  | some _ => .error "invalid type: expected u16"

/-- serde `bool` field with default false. -/
def parseBoolDefFalse (v : Option Json) : Except String Bool :=
  match v with
  | none => .ok false
  | some (.bool b) => .ok b
  | some _ => .error "invalid type: expected bool"

/-- `TypeArgs` (type_text.rs): required `text` string. -/
def parseTypeArgs (v : Json) : Except String String :=
  match v with
  | .obj fields => parseStrField fields "text"
  | _ => .error "invalid type: expected object"

/-- `SendKeyArgs` (send_key.rs): required `key` string. -/
def parseSendKeyArgs (v : Json) : Except String String :=
  match v with
  | .obj fields => parseStrField fields "key"
  | _ => .error "invalid type: expected object"

/-- `GetContentArgs` (get_content.rs). -/
structure GetContentArgs where
  start_row : Option Nat
  end_row : Option Nat
  include_trailing_whitespace : Bool

/-- Fallible parse of `GetContentArgs`. -/
def parseGetContentArgsE (v : Json) : Except String GetContentArgs :=
  match v with
  | .obj fields => do
    let sr ← parseOptU16 (fieldLookup fields "start_row")
    let er ← parseOptU16 (fieldLookup fields "end_row")
    let itw ← parseBoolDefFalse
      (fieldLookup fields "include_trailing_whitespace")
    .ok ⟨sr, er, itw⟩
  | _ => .error "invalid type: expected object"

/-- `from_value::<GetContentArgs>(args).unwrap_or_default()`. -/
def parseGetContentArgs (v : Json) : GetContentArgs :=
  (parseGetContentArgsE v).toOption.getD ⟨none, none, false⟩

/-- Fallible parse of `ScreenshotArgs` (screenshot.rs): optional
`format` string. -/
def parseScreenshotArgsE (v : Json) : Except String (Option String) :=
  match v with
  | .obj fields =>
    match fieldLookup fields "format" with
    | none => .ok none
    | some .null => .ok none
    | some (.str s) => .ok (some s)
    | some _ => .error "invalid type: expected string"
  | _ => .error "invalid type: expected object"

/-- `from_value::<ScreenshotArgs>(args).unwrap_or_default()`. -/
def parseScreenshotArgs (v : Json) : Option String :=
  (parseScreenshotArgsE v).toOption.getD none

/-! ## src/tools -/

namespace Tools

/-- `type_text` (type_text.rs): parse `{text}`, write the UTF-8 bytes,
report `Typed <len> characters` where `<len>` is Rust `String::len`,
i.e. the UTF-8 byte length. -/
def type_text (t : Terminal) (args : Json) :
    Terminal × Except String CallToolResult :=
  match parseTypeArgs args with
  | .error e => (t, .error ("Invalid arguments: " ++ e))
  | .ok text =>
    match t.write_str text with
    | .error e => (t, .error ("Failed to write to terminal: " ++ e))
    | .ok (t2, _) =>
      (t2, .ok (CallToolResult.text
        ("Typed " ++ natStr (utf8Len text.data) ++ " characters")))

/-- `send_key` (send_key.rs): parse `{key}`, encode and write, echo the
key name. -/
def send_key (t : Terminal) (args : Json) :
    Terminal × Except String CallToolResult :=
  match parseSendKeyArgs args with
  | .error e => (t, .error ("Invalid arguments: " ++ e))
  | .ok key =>
    match t.send_key key with
    | .error e => (t, .error ("Failed to send key: " ++ e))
    | .ok t2 => (t2, .ok (CallToolResult.text ("Sent key: " ++ key)))

/-- `get_content` (get_content.rs): range-select the content, then
unless the flag is set, clean the output. -/
def get_content (t : Terminal) (args : Json) :
    Terminal × Except String CallToolResult :=
  let a := parseGetContentArgs args
  let content :=
    match a.start_row, a.end_row with
    | some s, some e => t.get_content_range s e
    | some s, none => t.get_content_range s t.ptyRows
    | none, some e => t.get_content_range 0 e
    | none, none => t.get_content
  let content :=
    if a.include_trailing_whitespace then content else clean_output content
  (t, .ok (CallToolResult.text content))

/-- The screenshot header: terminal size, cursor position, and a rule of
one box-drawing character per column. -/
def screenshotHeader (t : Terminal) : String :=
  "Terminal: " ++ natStr t.ptyCols ++ "x" ++ natStr t.ptyRows ++
  " | Cursor: (" ++ natStr t.cursorRow ++ ", " ++ natStr t.cursorCol ++
  ")\n" ++ String.mk (List.replicate t.ptyCols '─') ++ "\n"

/-- `take_screenshot` (screenshot.rs): choose plain or ANSI content by
the `format` argument (default `ansi`), then prepend the header. -/
def take_screenshot (t : Terminal) (args : Json) :
    Terminal × Except String CallToolResult :=
  let fmt := (parseScreenshotArgs args).getD "ansi"
  let content :=
    match fmt with
    | "plain" => t.get_content
    | _ => t.take_screenshot
  (t, .ok (CallToolResult.text (screenshotHeader t ++ content)))

/-- `clear` (clear.rs): send the clear escape sequence, confirm. -/
def clear (t : Terminal) (_args : Json) :
    Terminal × Except String CallToolResult :=
  match t.clear with
  | .error e => (t, .error ("Failed to clear terminal: " ++ e))
  | .ok t2 => (t2, .ok (CallToolResult.text "Terminal cleared"))

end Tools

/-! ## Tool definitions (tools/mod.rs and each tool's `definition`). -/

/-- `type_text::definition`. -/
def typeDefinition : ToolDefinition :=
  ⟨"type",
   "Send text input to the terminal. The text is written directly to the terminal as if typed by a user.",
   .obj [("type", .str "object"),
     ("properties", .obj [("text", .obj
       [("type", .str "string"),
        ("description", .str "The text to type into the terminal")])]),
     ("required", .arr [.str "text"])]⟩

/-- `send_key::definition`. -/
def sendKeyDefinition : ToolDefinition :=
  ⟨"sendKey",
   "Send a special key or key combination to the terminal. Supports keys like Enter, Tab, Escape, arrow keys (Up, Down, Left, Right), function keys (F1-F12), and control combinations (Ctrl+C, Ctrl+D, etc.).",
   .obj [("type", .str "object"),
     ("properties", .obj [("key", .obj
       [("type", .str "string"),
        ("description", .str "The key to send. Examples: \x27Enter\x27, \x27Tab\x27, \x27Escape\x27, \x27Up\x27, \x27Down\x27, \x27Left\x27, \x27Right\x27, \x27Ctrl+C\x27, \x27Ctrl+D\x27, \x27Ctrl+Z\x27, \x27F1\x27, \x27Home\x27, \x27End\x27, \x27PageUp\x27, \x27PageDown\x27, \x27Backspace\x27, \x27Delete\x27")])]),
     ("required", .arr [.str "key"])]⟩

/-- `get_content::definition`. -/
def getContentDefinition : ToolDefinition :=
  ⟨"getContent",
   "Get the current terminal buffer content as plain text. Returns the visible screen content without ANSI escape codes.",
   .obj [("type", .str "object"),
     ("properties", .obj
       [("start_row", .obj
         [("type", .str "integer"),
          ("description", .str "Starting row (0-indexed). If not specified, starts from the first row."),
          ("minimum", .num 0)]),
        ("end_row", .obj
         [("type", .str "integer"),
          ("description", .str "Ending row (exclusive). If not specified, includes all rows to the end."),
          ("minimum", .num 0)]),
        ("include_trailing_whitespace", .obj
         [("type", .str "boolean"),
          ("description", .str "Whether to include trailing whitespace in the output. Default is false."),
          ("default", .bool false)])])]⟩

/-- `screenshot::definition`. -/
def screenshotDefinition : ToolDefinition :=
  ⟨"takeScreenshot",
   "Capture the current terminal state as text. By default includes ANSI escape codes for colors and formatting. Use format=\x27plain\x27 for plain text without escape codes.",
   .obj [("type", .str "object"),
     ("properties", .obj [("format", .obj
       [("type", .str "string"),
        ("description", .str "Output format: \x27ansi\x27 (default) includes color codes, \x27plain\x27 is plain text only"),
        ("enum", .arr [.str "ansi", .str "plain"]),
        ("default", .str "ansi")])])]⟩

/-- `clear::definition`. -/
def clearDefinition : ToolDefinition :=
  ⟨"clear",
   "Clear the terminal screen and move cursor to the top-left position.",
   .obj [("type", .str "object"), ("properties", .obj [])]⟩

/-- `get_tool_definitions` (tools/mod.rs), in source order. -/
def get_tool_definitions : List ToolDefinition :=
  [typeDefinition, sendKeyDefinition, getContentDefinition,
   screenshotDefinition, clearDefinition]

/-! ## src/mcp/server.rs -/

/-- `RootsCapability` (protocol.rs). -/
structure RootsCapability where
  listChanged : Bool

/-- `ClientCapabilities` (protocol.rs). -/
structure ClientCapabilities where
  roots : Option RootsCapability
  sampling : Option Json

/-- `ClientInfo` (protocol.rs). -/
structure ClientInfo where
  name : String
  version : String

/-- `InitializeParams` (protocol.rs, serde camelCase). -/
structure InitializeParams where
  protocolVersion : String
  capabilities : ClientCapabilities
  clientInfo : ClientInfo

/-- serde parse of `RootsCapability` (field `listChanged` defaults to
false). -/
def parseRootsCapability (v : Json) : Except String RootsCapability :=
  match v with
  | .obj fields => do
    let lc ← parseBoolDefFalse (fieldLookup fields "listChanged")
    .ok ⟨lc⟩
  | _ => .error "invalid type: expected object"

/-- serde parse of `ClientCapabilities` (both fields optional). -/
def parseClientCapabilities (v : Json) : Except String ClientCapabilities :=
  match v with
  | .obj fields => do
    let roots ←
      match fieldLookup fields "roots" with
      | none => Except.ok none
      | some .null => Except.ok none
      | some j => (parseRootsCapability j).map some
    let sampling :=
      match fieldLookup fields "sampling" with
      | none => none
      | some .null => none
      | some j => some j
    .ok ⟨roots, sampling⟩
  | _ => .error "invalid type: expected object"

/-- serde parse of `ClientInfo` (required `name`, `version`). -/
def parseClientInfo (v : Json) : Except String ClientInfo :=
  match v with
  | .obj fields => do
    let n ← parseStrField fields "name"
    let ver ← parseStrField fields "version"
    .ok ⟨n, ver⟩
  | _ => .error "invalid type: expected object"

/-- serde parse of `InitializeParams` (all three fields required,
camelCase keys). -/
def parseInitializeParams (v : Json) : Except String InitializeParams :=
  match v with
  | .obj fields => do
    let pv ← parseStrField fields "protocolVersion"
    let caps ←
      match fieldLookup fields "capabilities" with
      | none => Except.error "missing field capabilities"
      | some j => parseClientCapabilities j
    let ci ←
      match fieldLookup fields "clientInfo" with
      | none => Except.error "missing field clientInfo"
      | some j => parseClientInfo j
    .ok ⟨pv, caps, ci⟩
  | _ => .error "invalid type: expected object"

/-- Modelled from the spec: the crate version baked in by
`CARGO_PKG_VERSION` comes from Cargo.toml, which is not under src/; the
concrete value is claim-irrelevant. -/
def serverVersion : String := "0.1.0"

/-- The serialized `InitializeResult`: fixed protocol version,
`tools.listChanged = false` capability, and the server identity. -/
def initializeResultJson : Json :=
  .obj [("protocolVersion", .str "2024-11-05"),
    ("capabilities", .obj [("tools", .obj [("listChanged", .bool false)])]),
    ("serverInfo", .obj [("name", .str "terminal-mcp"),
      ("version", .str serverVersion)])]

/-- The serialized `ToolsListResult`. -/
def toolsListJson : Json :=
  .obj [("tools", .arr (get_tool_definitions.map toolDefToJson))]

/-- `McpServer` state: the shared terminal and the advisory
`initialized` flag. -/
structure McpServer where
  terminal : Terminal
  initialized : Bool

/-- `McpServer::handle_initialize`: params must be present and parse as
`InitializeParams`; either failure is an invalid-params error. -/
def handle_initialize (params : Option Json) : Except JsonRpcError Json :=
  match params with
  | none => .error (JsonRpcError.invalid_params "Missing initialize params")
  | some p =>
    match parseInitializeParams p with
    | .error e => .error (JsonRpcError.invalid_params e)
    | .ok _ => .ok initializeResultJson

/-- `McpServer::handle_tools_list`. -/
def handle_tools_list : Except JsonRpcError Json := .ok toolsListJson

/-- Wrap a tool handler's outcome (server.rs, end of
`handle_tools_call`): success serializes the result; a tool error is
converted into a *successful* value holding an error-flagged
`CallToolResult`. -/
def wrapToolOutcome (r : Except String CallToolResult) :
    Except JsonRpcError Json :=
  match r with
  | .ok callResult => .ok (callToolResultToJson callResult)
  | .error e => .ok (callToolResultToJson (CallToolResult.mkError e))

/-- Parse of `CallToolParams` (protocol.rs): required `name` string,
optional `arguments` value. -/
def parseCallToolParams (v : Json) : Except String (String × Option Json) :=
  match v with
  | .obj fields =>
    match fieldLookup fields "name" with
    | some (.str name) =>
      match fieldLookup fields "arguments" with
      | none => .ok (name, none)
      | some .null => .ok (name, none)
      | some j => .ok (name, some j)
    | some _ => .error "invalid type for field name"
    | none => .error "missing field name"
  | _ => .error "invalid type: expected object"

/-- `McpServer::handle_tools_call`: parse `{name, arguments?}` (failure
or absence is an invalid-params error), default the arguments to an
empty object, dispatch on the tool name (unknown name is an
invalid-params error), and wrap the handler outcome. -/
def handle_tools_call (t : Terminal) (params : Option Json) :
    Terminal × Except JsonRpcError Json :=
  match params with
  | none => (t, .error (JsonRpcError.invalid_params "Missing call params"))
  | some p =>
    match parseCallToolParams p with
    | .error e => (t, .error (JsonRpcError.invalid_params e))
    | .ok (name, arguments) =>
      let args := arguments.getD (Json.obj [])
      match name with
      | "type" =>
        let (t2, r) := Tools.type_text t args
        (t2, wrapToolOutcome r)
      | "sendKey" =>
        let (t2, r) := Tools.send_key t args
        (t2, wrapToolOutcome r)
      | "getContent" =>
        let (t2, r) := Tools.get_content t args
        (t2, wrapToolOutcome r)
      | "takeScreenshot" =>
        let (t2, r) := Tools.take_screenshot t args
        (t2, wrapToolOutcome r)
      | "clear" =>
        let (t2, r) := Tools.clear t args
        (t2, wrapToolOutcome r)
      | other =>
        (t, .error (JsonRpcError.invalid_params ("Unknown tool: " ++ other)))

/-- `McpServer::handle_request`: `initialized` and
`notifications/cancelled` return early with no response; every other
method computes a result, which is suppressed when the request carries
no id and otherwise wrapped as a success or error response. -/
def handle_request (s : McpServer) (req : JsonRpcRequest) :
    McpServer × Option JsonRpcResponse :=
  let isNotification := req.id.isNone
  match req.method with
  | "initialized" => ({ s with initialized := true }, none)
  | "notifications/cancelled" => (s, none)
  | _ =>
    let (s2, result) :=
      match req.method with
      | "initialize" => (s, handle_initialize req.params)
      | "ping" => (s, Except.ok (Json.obj []))
      | "tools/list" => (s, handle_tools_list)
      | "tools/call" =>
        let (t2, r) := handle_tools_call s.terminal req.params
        ({ s with terminal := t2 }, r)
      | m => (s, Except.error (JsonRpcError.method_not_found m))
    if isNotification then (s2, none)
    else
      (s2, some (match result with
        | .ok v => JsonRpcResponse.success req.id v
        | .error e => JsonRpcResponse.mkError req.id e))

/-- The main request loop (main.rs): handle requests one at a time in
arrival order, forwarding only the `some` responses to the response
stream. -/
def serverLoop (s : McpServer) : List JsonRpcRequest → List JsonRpcResponse
  | [] => []
  | req :: rest =>
    match handle_request s req with
    | (s2, none) => serverLoop s2 rest
    | (s2, some resp) => resp :: serverLoop s2 rest

/-! ## Sample states for witnesses and counterexamples -/

/-- An unstyled cell showing `a`. -/
def plainCell : Cell := ⟨"a", .default, .default, false, false, false, false⟩

/-- A bold red cell showing `b`. -/
def redCell : Cell := ⟨"b", .idx 1, .default, true, false, false, false⟩

/-- An empty default cell. -/
def emptyCell : Cell := ⟨"", .default, .default, false, false, false, false⟩

/-- A concrete 2x2 screen. -/
def sampleGrid : List (List Cell) := [[plainCell, redCell], [emptyCell, plainCell]]

/-- A concrete healthy terminal over `sampleGrid`. -/
def sampleTerminal : Terminal := ⟨sampleGrid, 0, 1, 2, 2, [], none⟩

/-- A terminal whose PTY write sink fails. -/
def brokenTerminal : Terminal := ⟨sampleGrid, 0, 1, 2, 2, [], some "broken pipe"⟩

/-- A concrete server state. -/
def sampleServer : McpServer := ⟨sampleTerminal, false⟩

/-- Row indices as a cons-friendly recursion: `s, s+1, …, s+n-1`. -/
def rowsFrom (s n : Nat) : List Nat := (List.range n).map (s + ·)

/-- Refinement statement of `get_content_range` following the spec's
words: the newline-joined text of the rows from `start` (inclusive) to
`min(end, rows)` (exclusive). -/
def specContentRange (t : Terminal) (startRow endRow : Nat) : String :=
  ⟨joinLines ((rowRange startRow (min endRow t.ptyRows)).map
    (rowContentsL t.grid))⟩

/-! # Theorems -/

/-! ### Helper lemmas for `get_content_range` -/

theorem rowsFrom_succ (s n : Nat) : rowsFrom s (n + 1) = s :: rowsFrom (s + 1) n := by
  unfold rowsFrom
  rw [List.range_succ_eq_map, List.map_cons, List.map_map]
  congr 1
  apply List.map_congr_left
  intro i _
  simp only [Function.comp_apply]
  omega

theorem gcr_unfold (t : Terminal) (s e : Nat) :
    t.get_content_range s e = String.mk
      ((rowsFrom s (min e t.ptyRows - s)).foldl
        (fun acc row =>
          acc ++ rowContentsL t.grid row ++
            (if row < min e t.ptyRows - 1 then ['\n'] else []))
        []) := rfl

theorem spec_range_unfold (t : Terminal) (s e : Nat) :
    specContentRange t s e =
      ⟨joinLines ((rowsFrom s (min e t.ptyRows - s)).map (rowContentsL t.grid))⟩ :=
  rfl

theorem gcr_loop_eq (grid : List (List Cell)) (e : Nat) :
    ∀ n s acc, s + n = e →
    (rowsFrom s n).foldl
      (fun acc row =>
        acc ++ rowContentsL grid row ++ (if row < e - 1 then ['\n'] else []))
      acc
    = acc ++ joinLines ((rowsFrom s n).map (rowContentsL grid)) := by
  intro n
  induction n with
  | zero => intro s acc _; simp [rowsFrom, joinLines, joinWith]
  | succ m ih =>
    intro s acc hse
    rw [rowsFrom_succ]
    cases m with
    | zero =>
      have hs : ¬ (s < e - 1) := by omega
      simp [rowsFrom, joinLines, joinWith, hs]
    | succ k =>
      have hs : s < e - 1 := by omega
      have hcons : rowsFrom (s + 1) (k + 1) = (s+1) :: rowsFrom (s + 2) k :=
        rowsFrom_succ (s+1) k
      rw [List.foldl_cons, ih (s + 1) _ (by omega)]
      rw [hcons]
      simp only [List.map_cons, joinLines, joinWith, if_pos hs]
      simp [List.append_assoc]

/-- **C9.** `get_content_range(start, end)` returns the newline-joined
text of rows from `start` (inclusive) to `min(end, rows)` (exclusive);
an end beyond the grid is clamped rather than an error, and for every
row `r` the empty range `get_content_range(r, r)` returns the empty
string. -/
theorem get_content_range_ok (t : Terminal) (s e r : Nat) :
    t.get_content_range s e = specContentRange t s e ∧
    t.get_content_range s e = t.get_content_range s (min e t.ptyRows) ∧
    t.get_content_range r r = "" := by
  refine ⟨?_, ?_, ?_⟩
  · rw [gcr_unfold, spec_range_unfold]
    by_cases hse : s ≤ min e t.ptyRows
    · rw [gcr_loop_eq t.grid (min e t.ptyRows) (min e t.ptyRows - s) s [] (by omega)]
      simp
    · have h0 : min e t.ptyRows - s = 0 := by omega
      rw [h0]
      rfl
  · rw [gcr_unfold, gcr_unfold]
    have h1 : min (min e t.ptyRows) t.ptyRows = min e t.ptyRows := by omega
    rw [h1]
  · rw [gcr_unfold]
    have h0 : min r t.ptyRows - r = 0 := by omega
    rw [h0]
    rfl

/-- **C2.** For every incoming message that has no `id` field (a
notification), regardless of its method — known, unknown, or one whose
processing would have produced an error for a request — the dispatcher
emits no response at all: `handle_request` returns no response, and the
request loop contributes nothing for it to the response stream. -/
theorem notification_no_response (s : McpServer) (req : JsonRpcRequest)
    (h : req.id = none) :
    (handle_request s req).2 = none ∧
    ∀ rest, serverLoop s (req :: rest) = serverLoop (handle_request s req).1 rest := by
  have h1 : (handle_request s req).2 = none := by
    unfold handle_request
    rw [h]
    simp only [Option.isNone_none]
    split
    · rfl
    · rfl
    · split
      all_goals simp_all
  refine ⟨h1, fun rest => ?_⟩
  show (match handle_request s req with
    | (s2, none) => serverLoop s2 rest
    | (s2, some resp) => resp :: serverLoop s2 rest) = _
  rcases hr : handle_request s req with ⟨s2, r⟩
  rw [hr] at h1
  simp only at h1
  subst h1
  rfl

/-- Witness for **C2**: a concrete id-less `tools/list` message produces
no response. -/
theorem notification_no_response_witness :
    (JsonRpcRequest.mk "2.0" none "tools/list" none).id = none ∧
    (handle_request sampleServer ⟨"2.0", none, "tools/list", none⟩).2 = none :=
  ⟨rfl, (notification_no_response sampleServer ⟨"2.0", none, "tools/list", none⟩ rfl).1⟩

/-- **C10.** For every incoming message whose method is `initialized` or
`notifications/cancelled`, `handle_request` returns no response even
when the message carries an `id`: those handlers return before the
notification check is consulted. -/
theorem lifecycle_methods_never_reply (s : McpServer) (req : JsonRpcRequest)
    (h : req.method = "initialized" ∨ req.method = "notifications/cancelled") :
    (handle_request s req).2 = none := by
  rcases h with h | h <;>
    · unfold handle_request
      rw [h]
      rfl

/-- Witness for **C10**: a concrete id-bearing `initialized` request
receives no reply. -/
theorem lifecycle_methods_never_reply_witness :
    (JsonRpcRequest.mk "2.0" (some (Json.num 7)) "initialized" none).method
      = "initialized" ∧
    (handle_request sampleServer
      ⟨"2.0", some (Json.num 7), "initialized", none⟩).2 = none :=
  ⟨rfl, lifecycle_methods_never_reply sampleServer
    ⟨"2.0", some (Json.num 7), "initialized", none⟩ (Or.inl rfl)⟩

/-! ### Helper lemmas for `clean_output` -/

theorem head_dropWhile_false {α : Type} (p : α → Bool) :
    ∀ (l : List α) (c : α), (l.dropWhile p).head? = some c → p c = false := by
  intro l
  induction l with
  | nil => intro c h; simp at h
  | cons a rest ih =>
    intro c h
    rw [List.dropWhile_cons] at h
    by_cases hp : p a = true
    · rw [if_pos hp] at h
      exact ih c h
    · rw [if_neg hp] at h
      simp at h
      rw [← h]
      simpa using hp

theorem trimEndL_getLast (l : List Char) (c : Char)
    (h : (trimEndL l).getLast? = some c) : isRustWs c = false := by
  unfold trimEndL at h
  rw [List.getLast?_reverse] at h
  exact head_dropWhile_false isRustWs l.reverse c h

theorem trimEndL_idem (l : List Char) : trimEndL (trimEndL l) = trimEndL l := by
  unfold trimEndL
  rw [List.reverse_reverse, List.dropWhile_idempotent]

theorem mem_trimEndL {c : Char} {l : List Char} (h : c ∈ trimEndL l) : c ∈ l := by
  unfold trimEndL at h
  rw [List.mem_reverse] at h
  exact List.mem_reverse.mp ((List.dropWhile_sublist isRustWs).mem h)

theorem dropTrailingCR_trimEndL (l : List Char) :
    dropTrailingCR (trimEndL l) = trimEndL l := by
  unfold dropTrailingCR
  rcases h : (trimEndL l).getLast? with _ | c
  · simp
  · have hc : isRustWs c = false := trimEndL_getLast l c h
    have : ¬ (c = '\r') := by
      intro hcr
      rw [hcr] at hc
      simp [isRustWs] at hc
    simp [this]

theorem rustLinesAux_append_newline :
    ∀ (l acc rest : List Char), '\n' ∉ l →
    rustLinesAux (l ++ '\n' :: rest) acc
      = dropTrailingCR (acc.reverse ++ l) :: rustLinesAux rest [] := by
  intro l
  induction l with
  | nil =>
    intro acc rest _
    simp [rustLinesAux]
  | cons c l ih =>
    intro acc rest h
    have hc : ¬ (c = '\n') := by
      intro hc; exact h (by rw [hc]; exact List.mem_cons_self _ _)
    have hl : '\n' ∉ l := fun hm => h (List.mem_cons_of_mem _ hm)
    simp only [List.cons_append, rustLinesAux, if_neg hc, List.append_eq]
    rw [ih (c :: acc) rest hl]
    simp

theorem rustLinesAux_no_newline :
    ∀ (l acc : List Char), '\n' ∉ l → acc.reverse ++ l ≠ [] →
    rustLinesAux l acc = [acc.reverse ++ l] := by
  intro l
  induction l with
  | nil =>
    intro acc _ hne
    simp only [List.append_nil] at hne
    simp only [rustLinesAux, List.append_nil]
    have : ¬ acc.isEmpty = true := by
      simp only [List.isEmpty_iff]
      intro h0
      rw [h0] at hne
      simp at hne
    rw [if_neg this]
  | cons c l ih =>
    intro acc h hne
    have hc : ¬ (c = '\n') := by
      intro hc; exact h (by rw [hc]; exact List.mem_cons_self _ _)
    have hl : '\n' ∉ l := fun hm => h (List.mem_cons_of_mem _ hm)
    simp only [rustLinesAux, if_neg hc]
    rw [ih (c :: acc) hl (by simp)]
    simp

theorem no_newline_dropTrailingCR {l : List Char} (h : '\n' ∉ l) :
    '\n' ∉ dropTrailingCR l := by
  unfold dropTrailingCR
  split
  · intro hm
    exact h ((List.dropLast_sublist l).mem hm)
  · exact h

theorem no_newline_rustLinesAux :
    ∀ (cs acc : List Char), '\n' ∉ acc →
    ∀ l ∈ rustLinesAux cs acc, '\n' ∉ l := by
  intro cs
  induction cs with
  | nil =>
    intro acc hacc l hl
    simp only [rustLinesAux] at hl
    split at hl
    · simp at hl
    · simp at hl
      rw [hl]
      simpa using hacc
  | cons c rest ih =>
    intro acc hacc l hl
    simp only [rustLinesAux] at hl
    by_cases hc : c = '\n'
    · rw [if_pos hc] at hl
      rcases List.mem_cons.mp hl with h1 | h2
      · rw [h1]
        exact no_newline_dropTrailingCR (by simpa using hacc)
      · exact ih [] (by simp) l h2
    · rw [if_neg hc] at hl
      refine ih (c :: acc) ?_ l hl
      intro hm
      rcases List.mem_cons.mp hm with h1 | h2
      · exact hc h1.symm
      · exact hacc h2

theorem joinLines_cons_cons (l next : List Char) (rest : List (List Char)) :
    joinLines (l :: next :: rest) = l ++ '\n' :: joinLines (next :: rest) := rfl

theorem rustLines_joinLines :
    ∀ T : List (List Char),
    (∀ l ∈ T, '\n' ∉ l ∧ dropTrailingCR l = l) →
    rustLines (joinLines T) = stripLastEmpty T := by
  intro T
  induction T with
  | nil => intro _; rfl
  | cons l T ih =>
    intro h
    rcases h l (List.mem_cons_self _ _) with ⟨hnl, hcr⟩
    cases T with
    | nil =>
      by_cases hl : l = []
      · rw [hl]
        rfl
      · show rustLines (joinLines [l]) = stripLastEmpty [l]
        unfold stripLastEmpty
        rw [if_neg hl]
        show rustLinesAux l [] = [l]
        have := rustLinesAux_no_newline l [] hnl (by simpa using hl)
        simpa using this
    | cons next rest =>
      show rustLines (joinLines (l :: next :: rest)) = stripLastEmpty (l :: next :: rest)
      rw [joinLines_cons_cons]
      unfold rustLines
      rw [rustLinesAux_append_newline l [] (joinLines (next :: rest)) hnl]
      have hrest : ∀ m ∈ next :: rest, '\n' ∉ m ∧ dropTrailingCR m = m :=
        fun m hm => h m (List.mem_cons_of_mem _ hm)
      have hih := ih hrest
      unfold rustLines at hih
      simp only [List.reverse_nil, List.nil_append, hcr, hih]
      rfl

theorem stripLastEmpty_spec :
    ∀ T : List (List Char),
    stripLastEmpty T = if T.getLast? = some [] then T.dropLast else T := by
  intro T
  induction T with
  | nil => simp [stripLastEmpty]
  | cons l T ih =>
    cases T with
    | nil =>
      show (if l = [] then [] else [l]) = _
      by_cases hl : l = []
      · rw [if_pos hl, hl]
        simp
      · rw [if_neg hl, if_neg (by simpa using hl)]
    | cons next rest =>
      show l :: stripLastEmpty (next :: rest) = _
      rw [ih]
      by_cases hlast : (next :: rest).getLast? = some []
      · rw [if_pos hlast, if_pos (by simpa using hlast)]
        rfl
      · rw [if_neg hlast, if_neg (by simpa using hlast)]

theorem dropTrailEmpty_stripLastEmpty (T : List (List Char)) :
    dropTrailEmpty (stripLastEmpty T) = dropTrailEmpty T := by
  rw [stripLastEmpty_spec]
  by_cases hlast : T.getLast? = some []
  · rw [if_pos hlast]
    have hne : T ≠ [] := by
      intro h0; rw [h0] at hlast; simp at hlast
    have hgl : T.getLast hne = [] := by
      have := List.getLast?_eq_getLast T hne
      rw [this] at hlast
      simpa using hlast
    have hsplit : T = T.dropLast ++ [[]] := by
      conv_lhs => rw [← List.dropLast_concat_getLast hne]
      rw [hgl]
    unfold dropTrailEmpty
    congr 1
    conv_rhs => rw [hsplit]
    rw [List.reverse_append, List.reverse_singleton]
    simp only [List.singleton_append, List.dropWhile_cons]
    rw [if_pos (by decide)]
  · rw [if_neg hlast]

theorem dropTrailEmpty_idem (T : List (List Char)) :
    dropTrailEmpty (dropTrailEmpty T) = dropTrailEmpty T := by
  unfold dropTrailEmpty
  rw [List.reverse_reverse, List.dropWhile_idempotent]

theorem mem_dropTrailEmpty {l : List Char} {T : List (List Char)}
    (h : l ∈ dropTrailEmpty T) : l ∈ T := by
  unfold dropTrailEmpty at h
  rw [List.mem_reverse] at h
  exact List.mem_reverse.mp ((List.dropWhile_sublist _).mem h)

theorem getLast_dropTrailEmpty {l : List Char} {T : List (List Char)}
    (h : (dropTrailEmpty T).getLast? = some l) : (trimBoth l).isEmpty = false := by
  unfold dropTrailEmpty at h
  rw [List.getLast?_reverse] at h
  exact head_dropWhile_false _ T.reverse l h

theorem cleanOutputL_eq (cs : List Char) :
    cleanOutputL cs = joinLines (dropTrailEmpty ((rustLines cs).map trimEndL)) := by
  unfold cleanOutputL trimTrailingEmptyLinesL trimTrailingWhitespaceL
  congr 1
  have hT : ∀ l ∈ (rustLines cs).map trimEndL, '\n' ∉ l ∧ dropTrailingCR l = l := by
    intro l hl
    rcases List.mem_map.mp hl with ⟨m, hm, rfl⟩
    refine ⟨?_, dropTrailingCR_trimEndL m⟩
    intro hmem
    exact (no_newline_rustLinesAux cs [] (by simp) m hm) (mem_trimEndL hmem)
  rw [rustLines_joinLines _ hT, dropTrailEmpty_stripLastEmpty]

theorem cleanOutputL_idem (cs : List Char) :
    cleanOutputL (cleanOutputL cs) = cleanOutputL cs := by
  rw [cleanOutputL_eq cs]
  have hmemT : ∀ l ∈ (rustLines cs).map trimEndL,
      '\n' ∉ l ∧ dropTrailingCR l = l ∧ trimEndL l = l := by
    intro l hl
    rcases List.mem_map.mp hl with ⟨m, hm, rfl⟩
    refine ⟨?_, dropTrailingCR_trimEndL m, trimEndL_idem m⟩
    intro hmem
    exact (no_newline_rustLinesAux cs [] (by simp) m hm) (mem_trimEndL hmem)
  have hmemR : ∀ l ∈ dropTrailEmpty ((rustLines cs).map trimEndL),
      '\n' ∉ l ∧ dropTrailingCR l = l ∧ trimEndL l = l :=
    fun l hl => hmemT l (mem_dropTrailEmpty hl)
  rw [cleanOutputL_eq]
  have h1 : rustLines (joinLines (dropTrailEmpty ((rustLines cs).map trimEndL)))
      = dropTrailEmpty ((rustLines cs).map trimEndL) := by
    rw [rustLines_joinLines _ (fun l hl => ⟨(hmemR l hl).1, (hmemR l hl).2.1⟩)]
    rw [stripLastEmpty_spec]
    rw [if_neg ?hne]
    case hne =>
      intro hlast
      have := getLast_dropTrailEmpty hlast
      simp [trimBoth, trimEndL] at this
  rw [h1]
  have h2 : (dropTrailEmpty ((rustLines cs).map trimEndL)).map trimEndL
      = dropTrailEmpty ((rustLines cs).map trimEndL) := by
    have := List.map_congr_left (l := dropTrailEmpty ((rustLines cs).map trimEndL))
      (f := trimEndL) (g := id) (fun l hl => (hmemR l hl).2.2)
    rw [this, List.map_id]
  rw [h2, dropTrailEmpty_idem]

/-- **C8.** `clean_output` (trim trailing whitespace from each line,
then strip trailing empty lines) is idempotent, and
`clean_output("hello   \nworld  \n\n\n") = "hello\nworld"`. -/
theorem clean_output_idempotent :
    (∀ s : String, clean_output (clean_output s) = clean_output s) ∧
    clean_output "hello   \nworld  \n\n\n" = "hello\nworld" := by
  constructor
  · intro s
    show String.mk (cleanOutputL (cleanOutputL s.data)) = String.mk (cleanOutputL s.data)
    rw [cleanOutputL_idem]
  · decide

/-! ### Helper lemmas for the screenshot round-trip -/

theorem digitChar_not_alpha (n : Nat) : (digitChar n).isAlpha = false := by
  unfold digitChar
  split <;> decide

theorem natDigitsAux_not_alpha :
    ∀ (fuel n : Nat) (c : Char), c ∈ natDigitsAux fuel n → c.isAlpha = false := by
  intro fuel
  induction fuel with
  | zero => intro n c h; simp [natDigitsAux] at h
  | succ f ih =>
    intro n c h
    unfold natDigitsAux at h
    split at h
    · simp at h
      rw [h]
      exact digitChar_not_alpha n
    · rcases List.mem_append.mp h with h1 | h2
      · exact ih _ c h1
      · simp at h2
        rw [h2]
        exact digitChar_not_alpha _

theorem natDigits_not_alpha {n : Nat} {c : Char} (h : c ∈ natDigits n) :
    c.isAlpha = false :=
  natDigitsAux_not_alpha (n + 1) n c h

theorem mem_joinWith {sep : Char} {c : Char} :
    ∀ {L : List (List Char)}, c ∈ joinWith sep L →
    c = sep ∨ ∃ l ∈ L, c ∈ l := by
  intro L
  induction L with
  | nil => intro h; simp [joinWith] at h
  | cons l L ih =>
    intro h
    cases L with
    | nil =>
      simp only [joinWith] at h
      exact Or.inr ⟨l, List.mem_cons_self _ _, h⟩
    | cons next rest =>
      rw [show joinWith sep (l :: next :: rest) = l ++ sep :: joinWith sep (next :: rest) from rfl] at h
      rcases List.mem_append.mp h with h1 | h2
      · exact Or.inr ⟨l, List.mem_cons_self _ _, h1⟩
      · rcases List.mem_cons.mp h2 with h3 | h4
        · exact Or.inl h3
        · rcases ih h4 with h5 | ⟨m, hm, hcm⟩
          · exact Or.inl h5
          · exact Or.inr ⟨m, List.mem_cons_of_mem _ hm, hcm⟩

theorem mem_cellCodes_not_alpha (cell : Cell) :
    ∀ code ∈ cellCodes cell, ∀ c ∈ code, c.isAlpha = false := by
  intro code hcode c hc
  unfold cellCodes at hcode
  rcases List.mem_append.mp hcode with h | h
  · rcases List.mem_append.mp h with h | h
    · rcases List.mem_append.mp h with h | h
      · rcases List.mem_append.mp h with h | h
        · rcases List.mem_append.mp h with h | h
          · split at h
            · simp at h; rw [h] at hc; simp at hc; subst hc; decide
            · simp at h
          · split at h
            · simp at h; rw [h] at hc; simp at hc; subst hc; decide
            · simp at h
        · split at h
          · simp at h; rw [h] at hc; simp at hc; subst hc; decide
          · simp at h
      · split at h
        · simp at h; rw [h] at hc; simp at hc; subst hc; decide
        · simp at h
    · split at h
      · simp at h
      · split at h
        · simp at h
          rw [h] at hc
          exact natDigits_not_alpha hc
        · split at h
          · simp at h
            rw [h] at hc
            exact natDigits_not_alpha hc
          · simp at h
            rw [h] at hc
            simp only [List.mem_cons] at hc
            rcases hc with rfl | rfl | rfl | rfl | rfl | h2
            · decide
            · decide
            · decide
            · decide
            · decide
            · exact natDigits_not_alpha h2
      · simp at h
        rw [h] at hc
        simp only [List.mem_cons, List.mem_append] at hc
        rcases hc with rfl | rfl | rfl | rfl | rfl | h2 | rfl | h2 | rfl | h2
        · decide
        · decide
        · decide
        · decide
        · decide
        · exact natDigits_not_alpha h2
        · decide
        · exact natDigits_not_alpha h2
        · decide
        · exact natDigits_not_alpha h2
  · split at h
    · simp at h
    · split at h
      · simp at h
        rw [h] at hc
        exact natDigits_not_alpha hc
      · split at h
        · simp at h
          rw [h] at hc
          exact natDigits_not_alpha hc
        · simp at h
          rw [h] at hc
          simp only [List.mem_cons] at hc
          rcases hc with rfl | rfl | rfl | rfl | rfl | h2
          · decide
          · decide
          · decide
          · decide
          · decide
          · exact natDigits_not_alpha h2
    · simp at h
      rw [h] at hc
      simp only [List.mem_cons, List.mem_append] at hc
      rcases hc with rfl | rfl | rfl | rfl | rfl | h2 | rfl | h2 | rfl | h2
      · decide
      · decide
      · decide
      · decide
      · decide
      · exact natDigits_not_alpha h2
      · decide
      · exact natDigits_not_alpha h2
      · decide
      · exact natDigits_not_alpha h2

theorem stripAnsiAux_cons_ne {c : Char} (l : List Char) (h : ¬ (c = '\x1b')) :
    stripAnsiAux .normal (c :: l) = c :: stripAnsiAux .normal l := by
  simp [stripAnsiAux, h]

theorem strip_inSeq :
    ∀ (body rest : List Char), (∀ c ∈ body, c.isAlpha = false) →
    stripAnsiAux .inSeq (body ++ 'm' :: rest) = stripAnsiAux .normal rest := by
  intro body
  induction body with
  | nil => intro rest _; simp [stripAnsiAux]
  | cons c body ih =>
    intro rest h
    have hc : c.isAlpha = false := h c (List.mem_cons_self _ _)
    show stripAnsiAux .inSeq (c :: (body ++ 'm' :: rest)) = _
    rw [show stripAnsiAux .inSeq (c :: (body ++ 'm' :: rest)) =
      if c.isAlpha then stripAnsiAux .normal (body ++ 'm' :: rest)
      else stripAnsiAux .inSeq (body ++ 'm' :: rest) from rfl]
    rw [hc]
    simp only [Bool.false_eq_true, if_false]
    exact ih rest (fun d hd => h d (List.mem_cons_of_mem _ hd))

theorem strip_sgr (body rest : List Char) (h : ∀ c ∈ body, c.isAlpha = false) :
    stripAnsiAux .normal ('\x1b' :: '[' :: (body ++ 'm' :: rest))
      = stripAnsiAux .normal rest := by
  show stripAnsiAux .sawEsc ('[' :: (body ++ 'm' :: rest)) = _
  show stripAnsiAux .inSeq (body ++ 'm' :: rest) = _
  exact strip_inSeq body rest h

theorem strip_reset (rest : List Char) :
    stripAnsiAux .normal ("\x1b[0m".data ++ rest) = stripAnsiAux .normal rest := by
  have := strip_sgr ['0'] rest (by intro c hc; simp at hc; subst hc; decide)
  simpa using this

theorem strip_cell_to_ansi (cell : Cell) (rest : List Char) :
    stripAnsiAux .normal (cell_to_ansi cell ++ rest) = stripAnsiAux .normal rest := by
  unfold cell_to_ansi
  split
  · simp
  · have hbody : ∀ c ∈ joinWith ';' (cellCodes cell), c.isAlpha = false := by
      intro c hc
      rcases mem_joinWith hc with rfl | ⟨l, hl, hcl⟩
      · decide
      · exact mem_cellCodes_not_alpha cell l hl c hcl
    have : "\x1b[".data ++ joinWith ';' (cellCodes cell) ++ ['m'] ++ rest
        = '\x1b' :: '[' :: (joinWith ';' (cellCodes cell) ++ 'm' :: rest) := by
      simp
    rw [this]
    exact strip_sgr _ rest hbody

theorem strip_rowShot :
    ∀ (cells : List Cell) (cur : Option Cell) (rest : List Char),
    (∀ cell ∈ cells, ¬ (headChar cell = '\x1b')) →
    stripAnsiAux .normal (rowShot cells cur ++ rest)
      = cells.map headChar ++ stripAnsiAux .normal rest := by
  intro cells
  induction cells with
  | nil => intro cur rest _; simp [rowShot]
  | cons cell cells ih =>
    intro cur rest h
    have hhd : ¬ (headChar cell = '\x1b') := h cell (List.mem_cons_self _ _)
    have htl : ∀ c ∈ cells, ¬ (headChar c = '\x1b') :=
      fun c hc => h c (List.mem_cons_of_mem _ hc)
    unfold rowShot
    split
    · have : ("\x1b[0m".data ++ cell_to_ansi cell ++
          (headChar cell :: rowShot cells (some cell))) ++ rest
          = "\x1b[0m".data ++ (cell_to_ansi cell ++
            (headChar cell :: (rowShot cells (some cell) ++ rest))) := by
        simp
      rw [this, strip_reset, strip_cell_to_ansi, stripAnsiAux_cons_ne _ hhd,
        ih (some cell) rest htl]
      simp
    · rw [List.cons_append, stripAnsiAux_cons_ne _ hhd, ih cur rest htl]
      simp

theorem strip_screenshot :
    ∀ grid : List (List Cell),
    (∀ row ∈ grid, ∀ cell ∈ row, ¬ (headChar cell = '\x1b')) →
    stripAnsiAux .normal (takeScreenshotL grid) = screenContents grid := by
  intro grid
  induction grid with
  | nil => intro _; rfl
  | cons row grid ih =>
    intro h
    have hrow : ∀ cell ∈ row, ¬ (headChar cell = '\x1b') :=
      h row (List.mem_cons_self _ _)
    have hrest : ∀ r ∈ grid, ∀ cell ∈ r, ¬ (headChar cell = '\x1b') :=
      fun r hr => h r (List.mem_cons_of_mem _ hr)
    cases grid with
    | nil =>
      show stripAnsiAux .normal (rowShot row none ++ "\x1b[0m".data) = row.map headChar
      rw [strip_rowShot row none _ hrow]
      rw [show stripAnsiAux .normal "\x1b[0m".data = [] from by decide]
      simp
    | cons next rest =>
      have hjoin : takeScreenshotL (row :: next :: rest)
          = rowShot row none ++ ("\x1b[0m".data ++
            ('\n' :: takeScreenshotL (next :: rest))) := by
        show joinLines _ = _
        rw [List.map_cons, List.map_cons, joinLines_cons_cons]
        simp [takeScreenshotL]
      rw [hjoin, strip_rowShot row none _ hrow, strip_reset,
        stripAnsiAux_cons_ne _ (by decide), ih hrest]
      show _ = joinLines (List.map _ (row :: next :: rest))
      rw [List.map_cons, List.map_cons, joinLines_cons_cons]
      simp [screenContents]

/-- **C6.** For every screen state (whose cells, as vt100 guarantees,
never display the escape character), the `take_screenshot()` output with
all ANSI escape sequences stripped is textually identical to
`get_content()` on that same state. -/
theorem screenshot_strip_roundtrip (t : Terminal)
    (h : ∀ row ∈ t.grid, ∀ cell ∈ row, ¬ (headChar cell = '\x1b')) :
    strip_ansi t.take_screenshot = t.get_content := by
  show String.mk (stripAnsiAux .normal (takeScreenshotL t.grid))
    = String.mk (screenContents t.grid)
  rw [strip_screenshot t.grid h]

/-- Witness for **C6**: the concrete styled sample screen. -/
theorem screenshot_strip_roundtrip_witness :
    (∀ row ∈ sampleTerminal.grid, ∀ cell ∈ row, ¬ (headChar cell = '\x1b')) ∧
    strip_ansi sampleTerminal.take_screenshot = sampleTerminal.get_content :=
  ⟨by decide, screenshot_strip_roundtrip sampleTerminal (by decide)⟩

/-! ### Key encoder lemmas -/

theorem toNat_ofNat_valid {n : Nat} (h : n.isValidChar) :
    (Char.ofNat n).toNat = n := by
  unfold Char.ofNat
  rw [dif_pos h]
  rfl

theorem toLowerChar_idem (c : Char) : toLowerChar (toLowerChar c) = toLowerChar c := by
  unfold toLowerChar
  by_cases h : 65 ≤ c.toNat ∧ c.toNat ≤ 90
  · rw [if_pos h]
    have hvalid : (c.toNat + 32).isValidChar := Or.inl (by omega)
    have hv : (Char.ofNat (c.toNat + 32)).toNat = c.toNat + 32 :=
      toNat_ofNat_valid hvalid
    rw [if_neg (by rw [hv]; omega)]
  · rw [if_neg h, if_neg h]

theorem toLowerL_idem (cs : List Char) : toLowerL (toLowerL cs) = toLowerL cs := by
  unfold toLowerL
  rw [List.map_map]
  apply List.map_congr_left
  intro c _
  exact toLowerChar_idem c

theorem key_to_sequence_lower (s : String) :
    key_to_sequence s = key_to_sequence (String.mk (toLowerL s.data)) := by
  show String.mk (keyToSequenceL s.data) = String.mk (keyToSequenceL (toLowerL s.data))
  unfold keyToSequenceL
  rw [toLowerL_idem]

/-- **C7.** For every key name accepted by the Key Encoder table,
`encode` is case-insensitive (lowering the input first never changes the
result) and deterministic, and returns the table's exact sequence; in
particular `encode("CTRL+C") = encode("ctrl+c") = "\x03"`, and
`ctrl+<letter>` for a-z yields the single byte `letter - 'a' + 1`. -/
theorem key_encoder_table_exact :
    (∀ s : String, key_to_sequence s = key_to_sequence (String.mk (toLowerL s.data))) ∧
    keyTable.all (fun p => keyToSequenceL p.1 == p.2) = true ∧
    key_to_sequence "CTRL+C" = "\x03" ∧
    key_to_sequence "ctrl+c" = "\x03" ∧
    (List.range 26).all (fun i =>
      keyToSequenceL ("ctrl+".data ++ [Char.ofNat (97 + i)])
        == [Char.ofNat (i + 1)]) = true := by
  refine ⟨key_to_sequence_lower, ?_, ?_, ?_, ?_⟩
  · decide
  · decide
  · decide
  · decide

/-- Counterexample for **C4**: the string `A` matches no recognized
category, yet `encode("A") = "a" ≠ "A"` — the input is lowercased before
the final passthrough arm, so it is not returned byte-identically. -/
theorem key_unknown_passthrough_counterexample :
    recognizedKey (toLowerL "A".data) = false ∧
    key_to_sequence "A" = "a" ∧ ¬ (("a" : String) = "A") :=
  ⟨by decide, by decide, by decide⟩

/-- **C4 (amended).** For every ASCII key-name string that matches none
of the recognized categories, `encode` returns the lowercased input
(never an error); such an input passes through byte-identically exactly
when lowercasing fixes every character, i.e. when it contains no
uppercase letters.  The all-ASCII hypothesis keeps the statement inside
the domain where the ASCII model of `str::to_lowercase` agrees with the
program: a non-ASCII input such as `É` is lowercased by the full Unicode
mapping and is outside this theorem. -/
theorem key_unknown_passthrough_lowercased (s : String)
    (_hascii : ∀ c ∈ s.data, c.toNat < 128)
    (h : recognizedKey (toLowerL s.data) = false) :
    key_to_sequence s = String.mk (toLowerL s.data) ∧
    ((∀ c ∈ s.data, toLowerChar c = c) → key_to_sequence s = s) := by
  have h1 : key_to_sequence s = String.mk (toLowerL s.data) := by
    unfold recognizedKey at h
    show String.mk (match keyLookup (toLowerL s.data) with
      | some seq => seq
      | none =>
        if isAltCombo (toLowerL s.data) = true
        then '\x1b' :: dropAltMarker (toLowerL s.data)
        else toLowerL s.data) = String.mk (toLowerL s.data)
    rcases hlk : keyLookup (toLowerL s.data) with _ | v
    · rw [hlk] at h
      simp only [Option.isSome_none, Bool.false_or] at h
      simp [hlk, h]
    · rw [hlk] at h
      simp at h
  refine ⟨h1, fun hfix => ?_⟩
  have hfixed : toLowerL s.data = s.data := by
    unfold toLowerL
    calc s.data.map toLowerChar = s.data.map id := List.map_congr_left hfix
    _ = s.data := List.map_id _
  rw [h1, hfixed]

/-- Witness for **C4**: the ASCII unrecognized `A` comes back
lowercased, and the all-lowercase unrecognized `xyz!` passes through
unchanged. -/
theorem key_unknown_passthrough_lowercased_witness :
    (∀ c ∈ ("A" : String).data, c.toNat < 128) ∧
    recognizedKey (toLowerL "A".data) = false ∧
    key_to_sequence "A" = String.mk (toLowerL "A".data) ∧
    key_to_sequence "xyz!" = "xyz!" :=
  ⟨by decide, by decide,
   (key_unknown_passthrough_lowercased "A" (by decide) (by decide)).1,
   (key_unknown_passthrough_lowercased "xyz!" (by decide) (by decide)).2
     (by decide)⟩

/-! ### Tool and dispatcher lemmas -/

theorem utf8EncodeChar_length (c : Char) :
    (utf8EncodeChar c).length = utf8SizeChar c := by
  simp only [utf8EncodeChar, utf8SizeChar]
  split_ifs <;> rfl

theorem utf8Encode_length (cs : List Char) :
    (utf8Encode cs).length = utf8Len cs := by
  unfold utf8Encode utf8Len
  induction cs with
  | nil => rfl
  | cons c cs ih =>
    rw [List.flatMap_cons, List.length_append, List.map_cons, List.sum_cons,
      utf8EncodeChar_length, ih]

/-- Counterexample for **C5**: the type tool reports Rust `String::len`,
the UTF-8 byte length, under the label "characters": for the
one-character text `é` it reports `Typed 2 characters`, so it does not
return the character count. -/
theorem type_text_counterexample :
    (Tools.type_text sampleTerminal (Json.obj [("text", Json.str "é")])).2
      = .ok (CallToolResult.text "Typed 2 characters") ∧
    ("é" : String).data.length = 1 ∧ ¬ ((2 : Nat) = 1) :=
  ⟨rfl, rfl, by decide⟩

/-- **C5 (amended).** The type tool, given a required `{text: string}`
argument, writes the UTF-8 bytes of `text` verbatim to the terminal and
reports the UTF-8 byte length of `text` (labelled "characters"), which
equals the number of bytes written; for all-ASCII text such as
`"echo hi\n"` this coincides with the character count, 8. -/
theorem type_text_reports_bytes (t : Terminal) (text : String)
    (h : t.writeError = none) :
    Tools.type_text t (Json.obj [("text", Json.str text)]) =
      ({ t with written := t.written ++ utf8Encode text.data },
       .ok (CallToolResult.text
         ("Typed " ++ natStr (utf8Len text.data) ++ " characters"))) ∧
    (utf8Encode text.data).length = utf8Len text.data := by
  refine ⟨?_, utf8Encode_length text.data⟩
  show (match parseTypeArgs (Json.obj [("text", Json.str text)]) with
    | Except.error e => (t, Except.error ("Invalid arguments: " ++ e))
    | Except.ok tx =>
      match t.write_str tx with
      | Except.error e => (t, Except.error ("Failed to write to terminal: " ++ e))
      | Except.ok (t2, _) =>
        (t2, Except.ok (CallToolResult.text
          ("Typed " ++ natStr (utf8Len tx.data) ++ " characters")))) = _
  have hp : parseTypeArgs (Json.obj [("text", Json.str text)]) = .ok text := rfl
  rw [hp]
  show (match t.write_str text with
    | Except.error e => (t, Except.error ("Failed to write to terminal: " ++ e))
    | Except.ok (t2, _) =>
      (t2, Except.ok (CallToolResult.text
        ("Typed " ++ natStr (utf8Len text.data) ++ " characters")))) = _
  unfold Terminal.write_str Terminal.write
  rw [h]
  rfl

/-- Witness for **C5**: typing `echo hi\n` reports 8. -/
theorem type_text_reports_bytes_witness :
    sampleTerminal.writeError = none ∧
    (Tools.type_text sampleTerminal
      (Json.obj [("text", Json.str "echo hi\n")])).2
      = .ok (CallToolResult.text "Typed 8 characters") := by
  refine ⟨rfl, ?_⟩
  rw [(type_text_reports_bytes sampleTerminal "echo hi\n" rfl).1]
  rfl

theorem screenshot_tool_unfold (t : Terminal) (args : Json) :
    Tools.take_screenshot t args =
      (t, Except.ok (CallToolResult.text (Tools.screenshotHeader t ++
        (match (parseScreenshotArgs args).getD "ansi" with
         | "plain" => t.get_content
         | _ => t.take_screenshot)))) := rfl

/-- Counterexample for **C3**: with format `plain` the takeScreenshot
tool returns the header-prefixed content, not the raw `get_content()`
text. -/
theorem screenshot_plain_header_counterexample :
    (Tools.take_screenshot sampleTerminal
      (Json.obj [("format", Json.str "plain")])).2
      = .ok (CallToolResult.text
          ("Terminal: 2x2 | Cursor: (0, 1)\n──\n" ++ "ab\n a")) ∧
    ¬ (("Terminal: 2x2 | Cursor: (0, 1)\n──\n" ++ "ab\n a" : String)
        = sampleTerminal.get_content) :=
  ⟨rfl, by decide⟩

/-- **C3 (amended).** The takeScreenshot tool prepends the one-line
header `Terminal: <cols>x<rows> | Cursor: (<row>, <col>)` and a
separator rule of width = cols to *both* formats: with format `plain`
the body is the raw `get_content()` text, and with format `ansi` (the
default, or any other value) the body is the style-diff rendering. -/
theorem screenshot_always_headed (t : Terminal) (args : Json) :
    ((parseScreenshotArgs args).getD "ansi" = "plain" →
      Tools.take_screenshot t args =
        (t, .ok (CallToolResult.text
          (Tools.screenshotHeader t ++ t.get_content)))) ∧
    (¬ ((parseScreenshotArgs args).getD "ansi" = "plain") →
      Tools.take_screenshot t args =
        (t, .ok (CallToolResult.text
          (Tools.screenshotHeader t ++ t.take_screenshot)))) ∧
    (String.mk (List.replicate t.ptyCols '─')).length = t.ptyCols := by
  refine ⟨?_, ?_, ?_⟩
  · intro hf
    rw [screenshot_tool_unfold, hf]
    rfl
  · intro hf
    rw [screenshot_tool_unfold]
    congr 2
    split
    · exact absurd (by assumption) hf
    · rfl
  · show (List.replicate t.ptyCols '─').length = t.ptyCols
    exact List.length_replicate _ _

/-- Witness for **C3**: both formats on the concrete sample terminal. -/
theorem screenshot_always_headed_witness :
    (parseScreenshotArgs (Json.obj [("format", Json.str "plain")])).getD "ansi"
      = "plain" ∧
    Tools.take_screenshot sampleTerminal (Json.obj [("format", Json.str "plain")])
      = (sampleTerminal, .ok (CallToolResult.text
          (Tools.screenshotHeader sampleTerminal ++ sampleTerminal.get_content))) ∧
    (parseScreenshotArgs (Json.obj [])).getD "ansi" = "ansi" ∧
    Tools.take_screenshot sampleTerminal (Json.obj [])
      = (sampleTerminal, .ok (CallToolResult.text
          (Tools.screenshotHeader sampleTerminal ++ sampleTerminal.take_screenshot))) :=
  ⟨rfl,
   (screenshot_always_headed sampleTerminal
     (Json.obj [("format", Json.str "plain")])).1 rfl,
   rfl,
   (screenshot_always_headed sampleTerminal (Json.obj [])).2.1 (by decide)⟩

/-- Counterexample for **C1**: a tools/call for `type` whose arguments
fail the tool's declared schema (missing required `text`) does *not*
produce an invalid-params protocol error: the tool handler runs and the
call returns a *successful* value holding an error-flagged tool
result. -/
theorem tools_call_arg_failure_counterexample :
    handle_tools_call sampleTerminal
      (some (Json.obj [("name", Json.str "type"), ("arguments", Json.obj [])]))
      = (sampleTerminal, .ok (callToolResultToJson
          (CallToolResult.mkError "Invalid arguments: missing field text"))) ∧
    (CallToolResult.mkError "Invalid arguments: missing field text").is_error
      = some true :=
  ⟨rfl, rfl⟩

/-- **C1 (amended).** For tools/call requests: missing or malformed
`{name, arguments?}` envelope params yield a JSON-RPC invalid-params
protocol error (code -32602) with the terminal untouched and no handler
run; per-tool argument schema failures are handled *inside* the tool
handler and come back as a successful JSON-RPC value holding an
error-flagged tool result with explanatory text; engine-level failures
during a validly-shaped call (e.g. a PTY write error) likewise yield a
successful value whose result is an error-flagged tool result. -/
theorem tools_call_error_taxonomy :
    (∀ e : String, (JsonRpcError.invalid_params e).code = -32602) ∧
    (∀ t : Terminal, handle_tools_call t none
      = (t, .error (JsonRpcError.invalid_params "Missing call params"))) ∧
    (∀ (t : Terminal) (p : Json) (e : String),
      parseCallToolParams p = .error e →
      handle_tools_call t (some p)
        = (t, .error (JsonRpcError.invalid_params e))) ∧
    (∀ (t : Terminal) (fl : List (String × Json)) (e : String),
      parseTypeArgs (Json.obj fl) = .error e →
      handle_tools_call t (some (Json.obj
          [("name", Json.str "type"), ("arguments", Json.obj fl)]))
        = (t, .ok (callToolResultToJson
            (CallToolResult.mkError ("Invalid arguments: " ++ e))))) ∧
    (∀ (t : Terminal) (text msg : String), t.writeError = some msg →
      handle_tools_call t (some (Json.obj [("name", Json.str "type"),
          ("arguments", Json.obj [("text", Json.str text)])]))
        = (t, .ok (callToolResultToJson (CallToolResult.mkError
            ("Failed to write to terminal: PTY error: Failed to write to PTY: "
              ++ msg))))) := by
  refine ⟨fun e => rfl, fun t => rfl, ?_, ?_, ?_⟩
  · intro t p e hpe
    simp only [handle_tools_call]
    rw [hpe]
  · intro t fl e hpe
    have ht : Tools.type_text t (Json.obj fl)
        = (t, Except.error ("Invalid arguments: " ++ e)) := by
      show (match parseTypeArgs (Json.obj fl) with
        | Except.error e => (t, Except.error ("Invalid arguments: " ++ e))
        | Except.ok tx =>
          match t.write_str tx with
          | Except.error e2 =>
            (t, Except.error ("Failed to write to terminal: " ++ e2))
          | Except.ok (t2, _) =>
            (t2, Except.ok (CallToolResult.text
              ("Typed " ++ natStr (utf8Len tx.data) ++ " characters")))) = _
      rw [hpe]
    show (match Tools.type_text t (Json.obj fl) with
      | (t2, r) => (t2, wrapToolOutcome r)) = _
    rw [ht]
    rfl
  · intro t text msg hmsg
    have ht : Tools.type_text t (Json.obj [("text", Json.str text)])
        = (t, Except.error
            ("Failed to write to terminal: PTY error: Failed to write to PTY: "
              ++ msg)) := by
      show (match parseTypeArgs (Json.obj [("text", Json.str text)]) with
        | Except.error e => (t, Except.error ("Invalid arguments: " ++ e))
        | Except.ok tx =>
          match t.write_str tx with
          | Except.error e2 =>
            (t, Except.error ("Failed to write to terminal: " ++ e2))
          | Except.ok (t2, _) =>
            (t2, Except.ok (CallToolResult.text
              ("Typed " ++ natStr (utf8Len tx.data) ++ " characters")))) = _
      rw [show parseTypeArgs (Json.obj [("text", Json.str text)])
        = Except.ok text from rfl]
      show (match t.write_str text with
        | Except.error e2 =>
          (t, Except.error ("Failed to write to terminal: " ++ e2))
        | Except.ok (t2, _) =>
          (t2, Except.ok (CallToolResult.text
            ("Typed " ++ natStr (utf8Len text.data) ++ " characters")))) = _
      unfold Terminal.write_str Terminal.write
      rw [hmsg]
      rfl
    show (match Tools.type_text t (Json.obj [("text", Json.str text)]) with
      | (t2, r) => (t2, wrapToolOutcome r)) = _
    rw [ht]
    rfl

/-- Witness for **C1**: a concrete malformed envelope and a concrete
PTY-write failure. -/
theorem tools_call_error_taxonomy_witness :
    parseCallToolParams (Json.obj []) = .error "missing field name" ∧
    handle_tools_call sampleTerminal (some (Json.obj []))
      = (sampleTerminal, .error (JsonRpcError.invalid_params "missing field name")) ∧
    brokenTerminal.writeError = some "broken pipe" ∧
    handle_tools_call brokenTerminal (some (Json.obj [("name", Json.str "type"),
        ("arguments", Json.obj [("text", Json.str "hi")])]))
      = (brokenTerminal, .ok (callToolResultToJson (CallToolResult.mkError
          ("Failed to write to terminal: PTY error: Failed to write to PTY: "
            ++ "broken pipe")))) :=
  ⟨rfl,
   tools_call_error_taxonomy.2.2.1 sampleTerminal (Json.obj [])
     "missing field name" rfl,
   rfl,
   tools_call_error_taxonomy.2.2.2.2 brokenTerminal "hi" "broken pipe" rfl⟩

end TerminalMcp
